import Mathlib

/-!
Shallow embedding of the BookCourier Express/MongoDB backend.

The source is a set of route handlers over three MongoDB collections
(`users`, `books`, `orders`).  Each collection is modelled as a list of
records in insertion order; `findOne {k: v}` becomes `List.find?` (first
match), `insertOne` appends, `updateOne` rewrites the first matching
record and reports whether it actually changed (`modifiedCount > 0`),
`deleteOne` removes the first matching record, `deleteMany` filters.
Object ids and emails are opaque strings; timestamps are naturals.

A handler takes its verified-token inputs (`req.decoded_email`, ...) and
the current store, and returns a result paired with the possibly-updated
store.  JavaScript control-flow details that matter to the claims are
kept: the `x || y` falsy-default idiom, and the fact that
`book.librarianEmail` on a `null` book throws a TypeError rather than
returning a 404 (modelled by the `nullDeref` result).
-/

namespace BookCourier

/-- JS `v || d` for an optional string field: `undefined` and `""` are falsy. -/
def jsOr (v : Option String) (d : String) : String :=
  match v with
  | none => d
  | some s => if s = "" then d else s

/-- JS `a || b` for two strings: the empty string is falsy. -/
def jsOrS (a b : String) : String :=
  if a = "" then b else a

/-- JS `.toUpperCase()` restricted to the char-by-char uppercasing the ids use. -/
def jsToUpper (s : String) : String :=
  ⟨s.data.map Char.toUpper⟩

/-- A document of the `users` collection. -/
structure User where
  id : String
  uid : String
  email : String
  name : String
  profileImage : String
  role : String
  createdAt : Nat
deriving Repr, DecidableEq

/-- A document of the `books` collection. -/
structure Book where
  id : String
  title : String
  author : String
  price : Nat
  description : String
  image : String
  status : String
  librarianEmail : String
  createdAt : Nat
deriving Repr, DecidableEq

/-- A document of the `orders` collection. -/
structure Order where
  id : String
  bookId : String
  bookTitle : String
  price : Nat
  email : String
  status : String
  paymentStatus : String
  createdAt : Nat
deriving Repr, DecidableEq

/-- The three collections the claims touch, each in insertion order. -/
structure Store where
  users : List User
  books : List Book
  orders : List Order
deriving Repr, DecidableEq

/-- Outcome of a route handler: the JSON payload on success, or the early
HTTP error return; `nullDeref` is an uncaught TypeError from reading a
property of a `null` document. -/
inductive HResult (α : Type) where
  | ok (a : α)
  | forbidden
  | notFound
  | badRequest
  | nullDeref
deriving Repr, DecidableEq

/-- `updateOne(filter, {$set: ...})`: rewrite the first record matching `p`
with `f`; the boolean is `modifiedCount > 0`, which is true only when the
rewritten record differs from the original. -/
def updateFirst {α : Type} [DecidableEq α] (p : α → Bool) (f : α → α) :
    List α → Bool × List α
  | [] => (false, [])
  | x :: xs =>
    if p x then (decide (f x ≠ x), f x :: xs)
    else
      let r := updateFirst p f xs
      (r.1, x :: r.2)

/-- `deleteOne(filter)`: remove the first record matching `p`; the boolean
is `deletedCount > 0`. -/
def deleteFirst {α : Type} (p : α → Bool) : List α → Bool × List α
  | [] => (false, [])
  | x :: xs =>
    if p x then (true, xs)
    else
      let r := deleteFirst p xs
      (r.1, x :: r.2)

/-- `users.findOne({email})`. -/
def findUser (s : Store) (e : String) : Option User :=
  s.users.find? (fun u => u.email == e)

/-- `books.findOne({_id})`. -/
def findBook (s : Store) (bid : String) : Option Book :=
  s.books.find? (fun b => b.id == bid)

/-- `orders.findOne({_id})`. -/
def findOrder (s : Store) (oid : String) : Option Order :=
  s.orders.find? (fun o => o.id == oid)

/-- The `!requester || requester.role !== role` gate at the top of the
admin and librarian handlers, as the condition for passing it. -/
def requireRole (s : Store) (e role : String) : Bool :=
  match findUser s e with
  | some u => u.role == role
  | none => false

/-- Role assignment on first login: admin allow-list first, then the
librarian allow-list, else `user`. -/
def assignRole (adminEmails librarianEmails : List String) (e : String) : String :=
  if adminEmails.contains e then "admin"
  else if librarianEmails.contains e then "librarian"
  else "user"

/-- `POST /auth/firebase-login`: look up the user by the verified email;
if absent, build the new user (name and picture defaulting via `||`),
insert it and return it; if present, return it unchanged. -/
def loginOrCreate (adminEmails librarianEmails : List String)
    (email uid : String) (name picture : Option String)
    (newId : String) (now : Nat) (s : Store) : User × Store :=
  match findUser s email with
  | some u => (u, s)
  | none =>
    let newUser : User :=
      { id := newId
        uid := uid
        email := email
        name := jsOr name "Anonymous"
        profileImage := jsOr picture ""
        role := assignRole adminEmails librarianEmails email
        createdAt := now }
    (newUser, { s with users := s.users ++ [newUser] })

/-- `GET /books`: `books.find({status: "published"})`. -/
def listPublished (s : Store) : List Book :=
  s.books.filter (fun b => b.status == "published")

/-- Descending-by-`createdAt` comparison used by `.sort({createdAt: -1})`. -/
def byNewest (a b : Book) : Bool :=
  decide (b.createdAt ≤ a.createdAt)

/-- `GET /books/latest`: published books sorted newest-first, limited to `n`. -/
def listLatestPublished (n : Nat) (s : Store) : List Book :=
  ((s.books.filter (fun b => b.status == "published")).mergeSort byNewest).take n

/-- The request body of `POST /orders`; `status`, `paymentStatus` and
`email` may be supplied by the client but are overridden by the spread. -/
structure OrderBody where
  bookId : String
  bookTitle : String
  price : Nat
  status : Option String
  paymentStatus : Option String
  email : Option String
deriving Repr, DecidableEq

/-- `POST /orders`: `{...req.body, email, status: "pending",
paymentStatus: "unpaid", createdAt: now}` — the forced fields come after
the spread, so client-supplied values for them are discarded. -/
def place (decodedEmail : String) (body : OrderBody) (newId : String) (now : Nat)
    (s : Store) : Order × Store :=
  let o : Order :=
    { id := newId
      bookId := body.bookId
      bookTitle := body.bookTitle
      price := body.price
      email := decodedEmail
      status := "pending"
      paymentStatus := "unpaid"
      createdAt := now }
  (o, { s with orders := s.orders ++ [o] })

/-- Common body of `PUT /users/cancel/:id` and `PUT /users/pay/:id`
(the two handlers are verbatim duplicates up to the `$set` payload `g`):
403 when the order is missing or owned by a different email, else
`updateOne({_id}, {$set: ...})`. -/
def setOrderField (g : Order → Order) (decodedEmail oid : String) (s : Store) :
    HResult Bool × Store :=
  match findOrder s oid with
  | none => (.forbidden, s)
  | some o =>
    if o.email ≠ decodedEmail then (.forbidden, s)
    else
      let r := updateFirst (fun x => x.id == oid) g s.orders
      (.ok r.1, { s with orders := r.2 })

/-- `PUT /users/cancel/:id`: `$set: {status: "cancelled"}`. -/
def cancel (decodedEmail oid : String) (s : Store) : HResult Bool × Store :=
  setOrderField (fun x => { x with status := "cancelled" }) decodedEmail oid s

/-- `PUT /users/pay/:id`: `$set: {paymentStatus: "paid"}`. -/
def pay (decodedEmail oid : String) (s : Store) : HResult Bool × Store :=
  setOrderField (fun x => { x with paymentStatus := "paid" }) decodedEmail oid s

/-- `PATCH /admin/users/:id/role`: admin gate, then
`{$set: {role: req.body.role}}` with no validation of the value. -/
def updateRole (reqEmail targetId newRole : String) (s : Store) :
    HResult Bool × Store :=
  if requireRole s reqEmail "admin" = false then (.forbidden, s)
  else
    let r := updateFirst (fun u => u.id == targetId)
      (fun u => { u with role := newRole }) s.users
    (.ok r.1, { s with users := r.2 })

/-- `DELETE /admin/books/:id`: admin gate, then
`orders.deleteMany({bookId})` followed by `books.deleteOne({_id})`. -/
def deleteCascade (reqEmail bid : String) (s : Store) : HResult Bool × Store :=
  if requireRole s reqEmail "admin" = false then (.forbidden, s)
  else
    let orders2 := s.orders.filter (fun o => !(o.bookId == bid))
    let r := deleteFirst (fun b => b.id == bid) s.books
    (.ok r.1, { s with orders := orders2, books := r.2 })

/-- The `$set` payload of `PATCH /librarian/books/:id`. -/
structure BookFields where
  status : String
  title : String
  author : String
  price : Nat
  description : String
deriving Repr, DecidableEq

/-- Apply the librarian edit payload to a book document. -/
def applyFields (f : BookFields) (b : Book) : Book :=
  { b with
    status := f.status
    title := f.title
    author := f.author
    price := f.price
    description := f.description }

/-- `PATCH /librarian/books/:id`: librarian gate, then an update filtered
by both `_id` and `librarianEmail`, reporting `modifiedCount > 0`. -/
def updateOwned (le bid : String) (f : BookFields) (s : Store) :
    HResult Bool × Store :=
  if requireRole s le "librarian" = false then (.forbidden, s)
  else
    let r := updateFirst (fun b => b.id == bid && b.librarianEmail == le)
      (applyFields f) s.books
    (.ok r.1, { s with books := r.2 })

/-- The `allowedStatuses` literal of `PATCH /librarian/orders/:id/status`. -/
def validStatuses : List String :=
  ["pending", "shipped", "delivered"]

/-- `PATCH /librarian/orders/:id/status`: librarian gate, status
allow-list, 404 on a missing order; then the source reads
`book.librarianEmail` without a null check, so a dangling `bookId`
throws (`nullDeref`) instead of returning 404; otherwise a 403 for a
foreign book, else the update. -/
def updateStatus (le oid st : String) (s : Store) : HResult Bool × Store :=
  if requireRole s le "librarian" = false then (.forbidden, s)
  else if validStatuses.contains st = false then (.badRequest, s)
  else
    match findOrder s oid with
    | none => (.notFound, s)
    | some o =>
      match findBook s o.bookId with
      | none => (.nullDeref, s)
      | some bk =>
        if bk.librarianEmail ≠ le then (.forbidden, s)
        else
          let r := updateFirst (fun x => x.id == oid)
            (fun x => { x with status := st }) s.orders
          (.ok r.1, { s with orders := r.2 })

/-- An entry of the `GET /users/invoices` response. -/
structure Invoice where
  id : String
  paymentId : String
  bookTitle : String
  amount : Nat
  date : Nat
deriving Repr, DecidableEq

/-- `o._id.toString().slice(-8).toUpperCase()`. -/
def sliceLast8Upper (str : String) : String :=
  jsToUpper (str.takeRight 8)

/-- Shape one paid order into an invoice, including the
`book?.title || o.bookTitle || "Unknown"` fallback chain. -/
def invoiceOf (s : Store) (o : Order) : Invoice :=
  { id := o.id
    paymentId := sliceLast8Upper o.id
    bookTitle :=
      jsOrS
        (match findBook s o.bookId with
         | some bk => bk.title
         | none => "")
        (jsOrS o.bookTitle "Unknown")
    amount := o.price
    date := o.createdAt }

/-- `GET /users/invoices`: one invoice per order of the verified email
with `paymentStatus: "paid"`. -/
def invoicesFor (e : String) (s : Store) : List Invoice :=
  (s.orders.filter (fun o => o.email == e && o.paymentStatus == "paid")).map
    (invoiceOf s)

/-- The closed set of roles named by the data model. -/
def roleSet : List String :=
  ["user", "librarian", "admin"]

/-! ### Generic lemmas about the collection operations -/

theorem updateFirst_of_none {α : Type} [DecidableEq α] (p : α → Bool) (f : α → α)
    (l : List α) (h : ∀ x ∈ l, p x = false) : updateFirst p f l = (false, l) := by
  induction l with
  | nil => rfl
  | cons x xs ih =>
    have hx := h x (List.mem_cons_self x xs)
    simp [updateFirst, hx, ih (fun y hy => h y (List.mem_cons_of_mem x hy))]

theorem updateFirst_true_mem {α : Type} [DecidableEq α] {p : α → Bool} {f : α → α}
    {l : List α} (h : (updateFirst p f l).1 = true) : ∃ x ∈ l, p x = true := by
  induction l with
  | nil => simp [updateFirst] at h
  | cons x xs ih =>
    cases hpx : p x with
    | true => exact ⟨x, List.mem_cons_self x xs, hpx⟩
    | false =>
      simp only [updateFirst, hpx, Bool.false_eq_true, if_false] at h
      obtain ⟨y, hy, hpy⟩ := ih h
      exact ⟨y, List.mem_cons_of_mem x hy, hpy⟩

theorem mem_updateFirst {α : Type} [DecidableEq α] {p : α → Bool} {f : α → α}
    {l : List α} {u : α} (h : u ∈ (updateFirst p f l).2) :
    u ∈ l ∨ ∃ v ∈ l, u = f v := by
  induction l with
  | nil => simp [updateFirst] at h
  | cons x xs ih =>
    cases hpx : p x with
    | true =>
      simp only [updateFirst, hpx, if_true, List.mem_cons] at h
      rcases h with h | h
      · exact .inr ⟨x, List.mem_cons_self x xs, h⟩
      · exact .inl (List.mem_cons_of_mem x h)
    | false =>
      simp only [updateFirst, hpx, Bool.false_eq_true, if_false, List.mem_cons] at h
      rcases h with h | h
      · exact .inl (by simp [h])
      · rcases ih h with h | ⟨v, hv, huv⟩
        · exact .inl (List.mem_cons_of_mem x h)
        · exact .inr ⟨v, List.mem_cons_of_mem x hv, huv⟩

theorem find?_updateFirst {α : Type} [DecidableEq α] {p : α → Bool} {f : α → α}
    {l : List α} {x : α} (h : l.find? p = some x) (hf : p (f x) = true) :
    ((updateFirst p f l).2).find? p = some (f x) := by
  induction l with
  | nil => simp at h
  | cons y ys ih =>
    cases hpy : p y with
    | false =>
      rw [List.find?_cons_of_neg _ (by simp [hpy])] at h
      simp only [updateFirst, hpy, Bool.false_eq_true, if_false]
      rw [List.find?_cons_of_neg _ (by simp [hpy])]
      exact ih h
    | true =>
      rw [List.find?_cons_of_pos _ hpy] at h
      injection h with h
      subst h
      simp only [updateFirst, hpy, if_true]
      exact List.find?_cons_of_pos _ hf

theorem updateFirst_stable {α : Type} [DecidableEq α] {p : α → Bool} (f : α → α)
    (hp : ∀ a, p a = true → p (f a) = true) (hff : ∀ a, f (f a) = f a) (l : List α) :
    (updateFirst p f (updateFirst p f l).2).2 = (updateFirst p f l).2 := by
  induction l with
  | nil => rfl
  | cons x xs ih =>
    cases hpx : p x with
    | true => simp [updateFirst, hpx, hp x hpx, hff x]
    | false => simp [updateFirst, hpx, ih]

theorem filter_not_eq_self_of_none {α : Type} {p : α → Bool} {l : List α}
    (h : ∀ a ∈ l, p a = false) : l.filter (fun a => !(p a)) = l := by
  rw [List.filter_eq_self]
  intro a ha
  simp [h a ha]

theorem deleteFirst_eq_filter {α β : Type} [DecidableEq β] (key : α → β) (b : β)
    (l : List α) (h : (l.map key).Nodup) :
    (deleteFirst (fun a => key a == b) l).2 = l.filter (fun a => !(key a == b)) := by
  induction l with
  | nil => rfl
  | cons x xs ih =>
    rw [List.map_cons, List.nodup_cons] at h
    cases hx : (key x == b) with
    | true =>
      have hxb : key x = b := by simpa using hx
      have hnone : ∀ a ∈ xs, (key a == b) = false := by
        intro a ha
        have : key a ≠ b := by
          intro hab
          exact h.1 (by rw [← hxb] at hab; exact hab ▸ List.mem_map_of_mem key ha)
        simpa using this
      simp only [deleteFirst, hx, if_true, List.filter_cons, Bool.not_true,
        Bool.false_eq_true, if_false]
      exact (filter_not_eq_self_of_none hnone).symm
    | false =>
      simp only [deleteFirst, hx, Bool.false_eq_true, if_false, List.filter_cons,
        Bool.not_false, if_true]
      rw [ih h.2]

/-! ### Claim theorems -/

/-- C5: For every authenticated principal and every request body, the
Order created by `place` has status `pending`, paymentStatus `unpaid`,
and email equal to the verified principal's email, regardless of any
status, paymentStatus, or email values supplied in the input; its
creation timestamp is set at creation time, and the order is appended to
the orders collection leaving users and books untouched. -/
theorem place_forces_fields (e : String) (body : OrderBody) (nid : String)
    (now : Nat) (s : Store) :
    (place e body nid now s).1.status = "pending"
      ∧ (place e body nid now s).1.paymentStatus = "unpaid"
      ∧ (place e body nid now s).1.email = e
      ∧ (place e body nid now s).1.createdAt = now
      ∧ (place e body nid now s).2.orders = s.orders ++ [(place e body nid now s).1]
      ∧ (place e body nid now s).2.users = s.users
      ∧ (place e body nid now s).2.books = s.books := by
  simp [place]

/-- C1: On a login with a verified email not yet in the users collection,
`loginOrCreate` inserts exactly one new User — role admin if the email is
in the admin allow-list, else librarian if in the librarian allow-list,
else user; name defaulting to "Anonymous" and profile image defaulting to
the empty string — and returns it; on a repeat login it returns the
existing record and changes nothing. -/
theorem loginOrCreate_spec (adm lib : List String) (e uid : String)
    (nm pic : Option String) (nid : String) (now : Nat) (s : Store) :
    (findUser s e = none →
      (loginOrCreate adm lib e uid nm pic nid now s).2.users
          = s.users ++ [(loginOrCreate adm lib e uid nm pic nid now s).1]
        ∧ (loginOrCreate adm lib e uid nm pic nid now s).2.books = s.books
        ∧ (loginOrCreate adm lib e uid nm pic nid now s).2.orders = s.orders
        ∧ (loginOrCreate adm lib e uid nm pic nid now s).1.email = e
        ∧ (loginOrCreate adm lib e uid nm pic nid now s).1.role
            = (if e ∈ adm then "admin" else if e ∈ lib then "librarian" else "user")
        ∧ (nm = none → (loginOrCreate adm lib e uid nm pic nid now s).1.name = "Anonymous")
        ∧ (pic = none → (loginOrCreate adm lib e uid nm pic nid now s).1.profileImage = ""))
    ∧ (∀ u, findUser s e = some u → loginOrCreate adm lib e uid nm pic nid now s = (u, s)) := by
  constructor
  · intro hnone
    refine ⟨?_, ?_, ?_, ?_, ?_, ?_, ?_⟩ <;>
      simp [loginOrCreate, hnone, assignRole, jsOr, List.contains]
    · intro h
      subst h
      rfl
    · intro h
      subst h
      rfl
  · intro u hu
    simp [loginOrCreate, hu]

/-- The empty store, used by concrete witnesses. -/
def emptyStore : Store :=
  ⟨[], [], []⟩

/-- An already-provisioned user, for the repeat-login witness. -/
def seededUser : User :=
  { id := "id0", uid := "fb0", email := "seen@x.com", name := "Seen"
    profileImage := "", role := "user", createdAt := 1 }

/-- A store that already contains `seededUser`. -/
def seededStore : Store :=
  ⟨[seededUser], [], []⟩

/-- Witness for C1: a concrete first login on the empty store for an
email on the librarian allow-list, and a concrete repeat login. -/
theorem loginOrCreate_spec_witness :
    ((loginOrCreate ["a@g.com"] ["l@g.com"] "l@g.com" "u1" none none "id1" 5 emptyStore).2.users
          = emptyStore.users
            ++ [(loginOrCreate ["a@g.com"] ["l@g.com"] "l@g.com" "u1" none none "id1" 5 emptyStore).1]
        ∧ (loginOrCreate ["a@g.com"] ["l@g.com"] "l@g.com" "u1" none none "id1" 5 emptyStore).2.books
          = emptyStore.books
        ∧ (loginOrCreate ["a@g.com"] ["l@g.com"] "l@g.com" "u1" none none "id1" 5 emptyStore).2.orders
          = emptyStore.orders
        ∧ (loginOrCreate ["a@g.com"] ["l@g.com"] "l@g.com" "u1" none none "id1" 5 emptyStore).1.email
          = "l@g.com"
        ∧ (loginOrCreate ["a@g.com"] ["l@g.com"] "l@g.com" "u1" none none "id1" 5 emptyStore).1.role
          = (if "l@g.com" ∈ ["a@g.com"] then "admin"
             else if "l@g.com" ∈ ["l@g.com"] then "librarian" else "user")
        ∧ (none = (none : Option String) →
            (loginOrCreate ["a@g.com"] ["l@g.com"] "l@g.com" "u1" none none "id1" 5 emptyStore).1.name
              = "Anonymous")
        ∧ (none = (none : Option String) →
            (loginOrCreate ["a@g.com"] ["l@g.com"] "l@g.com" "u1" none none "id1" 5 emptyStore).1.profileImage
              = ""))
      ∧ loginOrCreate ["a@g.com"] ["l@g.com"] "seen@x.com" "fb0" none none "id9" 9 seededStore
          = (seededUser, seededStore) :=
  ⟨(loginOrCreate_spec ["a@g.com"] ["l@g.com"] "l@g.com" "u1" none none "id1" 5 emptyStore).1 rfl,
   (loginOrCreate_spec ["a@g.com"] ["l@g.com"] "seen@x.com" "fb0" none none "id9" 9 seededStore).2
     seededUser rfl⟩

/-- C2: After `deleteCascade bid` completes as an admin, no order
references `bid` and no book with that id remains; users are untouched,
orders referencing other books survive unchanged, and so do all other
books.  The hypothesis that book ids are duplicate-free reflects the
uniqueness of Mongo's `_id` index. -/
theorem deleteCascade_spec (re bid : String) (s : Store) (b : Bool) (s2 : Store)
    (hids : (s.books.map Book.id).Nodup)
    (h : deleteCascade re bid s = (.ok b, s2)) :
    (∀ o ∈ s2.orders, o.bookId ≠ bid)
      ∧ (∀ bk ∈ s2.books, bk.id ≠ bid)
      ∧ s2.users = s.users
      ∧ s2.orders = s.orders.filter (fun o => !(o.bookId == bid))
      ∧ s2.books = s.books.filter (fun bk => !(bk.id == bid)) := by
  have hrole : requireRole s re "admin" = true := by
    by_contra hc
    rw [Bool.not_eq_true] at hc
    rw [deleteCascade, hc] at h
    simp at h
  rw [deleteCascade, hrole] at h
  simp only [Bool.true_eq_false, if_false, Prod.mk.injEq, HResult.ok.injEq] at h
  obtain ⟨-, hs2⟩ := h
  have hbooks : (deleteFirst (fun bk => bk.id == bid) s.books).2
      = s.books.filter (fun bk => !(bk.id == bid)) :=
    deleteFirst_eq_filter Book.id bid s.books hids
  subst hs2
  refine ⟨?_, ?_, rfl, rfl, hbooks⟩
  · intro o ho
    simp only [List.mem_filter] at ho
    simpa using ho.2
  · intro bk hbk
    rw [show ({ s with
          orders := s.orders.filter (fun o => !(o.bookId == bid)),
          books := (deleteFirst (fun bk => bk.id == bid) s.books).2 } : Store).books
        = (deleteFirst (fun bk => bk.id == bid) s.books).2 from rfl, hbooks] at hbk
    simp only [List.mem_filter] at hbk
    simpa using hbk.2

/-- A seeded admin account used by the admin-route witnesses. -/
def adminUser : User :=
  { id := "idA", uid := "fbA", email := "admin@x.com", name := "A"
    profileImage := "", role := "admin", createdAt := 0 }

/-- A book owned by the librarian account, used by several witnesses. -/
def bookB : Book :=
  { id := "b1", title := "T1", author := "Au", price := 20, description := "d"
    image := "", status := "published", librarianEmail := "lib@x.com", createdAt := 4 }

/-- A second book, not matching the deleted id. -/
def bookC : Book :=
  { id := "b2", title := "T2", author := "Au", price := 9, description := "d"
    image := "", status := "draft", librarianEmail := "lib@x.com", createdAt := 2 }

/-- An order referencing `bookB`. -/
def orderB : Order :=
  { id := "o1", bookId := "b1", bookTitle := "T1", price := 20
    email := "me@x.com", status := "pending", paymentStatus := "unpaid", createdAt := 6 }

/-- An order referencing `bookC`. -/
def orderC : Order :=
  { id := "o2", bookId := "b2", bookTitle := "T2", price := 9
    email := "me@x.com", status := "pending", paymentStatus := "unpaid", createdAt := 7 }

/-- A store with an admin, two books and one order on each. -/
def cascadeStore : Store :=
  ⟨[adminUser], [bookB, bookC], [orderB, orderC]⟩

/-- Witness for C2: deleting `b1` from `cascadeStore` as the admin. -/
theorem deleteCascade_spec_witness :
    (∀ o ∈ (deleteCascade "admin@x.com" "b1" cascadeStore).2.orders, o.bookId ≠ "b1")
      ∧ (∀ bk ∈ (deleteCascade "admin@x.com" "b1" cascadeStore).2.books, bk.id ≠ "b1")
      ∧ (deleteCascade "admin@x.com" "b1" cascadeStore).2.users = cascadeStore.users
      ∧ (deleteCascade "admin@x.com" "b1" cascadeStore).2.orders
          = cascadeStore.orders.filter (fun o => !(o.bookId == "b1"))
      ∧ (deleteCascade "admin@x.com" "b1" cascadeStore).2.books
          = cascadeStore.books.filter (fun bk => !(bk.id == "b1")) :=
  deleteCascade_spec "admin@x.com" "b1" cascadeStore true
    (deleteCascade "admin@x.com" "b1" cascadeStore).2 (by decide) (by decide)

/-- C4: With a librarian principal, `updateOwned` against a book id that
does not exist or is owned by another librarian returns false and leaves
the store unchanged, and it can report a modification only when a book
matching both the id and the librarian's ownership exists. -/
theorem updateOwned_spec (le bid : String) (f : BookFields) (s : Store)
    (hrole : requireRole s le "librarian" = true) :
    ((∀ bk ∈ s.books, ¬(bk.id = bid ∧ bk.librarianEmail = le)) →
        updateOwned le bid f s = (.ok false, s))
      ∧ (∀ s2, updateOwned le bid f s = (.ok true, s2) →
          ∃ bk ∈ s.books, bk.id = bid ∧ bk.librarianEmail = le) := by
  constructor
  · intro hno
    have hfalse : ∀ bk ∈ s.books, (bk.id == bid && bk.librarianEmail == le) = false := by
      intro bk hbk
      have := hno bk hbk
      simp only [Bool.and_eq_false_iff, beq_eq_false_iff_ne, ne_eq]
      tauto
    rw [updateOwned, hrole]
    simp [updateFirst_of_none _ _ _ hfalse]
  · intro s2 h
    rw [updateOwned, hrole] at h
    simp only [Bool.true_eq_false, if_false, Prod.mk.injEq, HResult.ok.injEq] at h
    obtain ⟨hone, -⟩ := h
    obtain ⟨bk, hbk, hp⟩ := updateFirst_true_mem hone
    refine ⟨bk, hbk, ?_⟩
    simpa using hp

/-- A seeded librarian account used by the librarian-route witnesses. -/
def libUser : User :=
  { id := "idL", uid := "fbL", email := "lib@x.com", name := "L"
    profileImage := "", role := "librarian", createdAt := 0 }

/-- A book owned by a different librarian. -/
def foreignBook : Book :=
  { id := "bF", title := "F", author := "Au", price := 5, description := "d"
    image := "", status := "published", librarianEmail := "other@x.com", createdAt := 1 }

/-- A store where the acting librarian owns nothing. -/
def foreignBookStore : Store :=
  ⟨[libUser], [foreignBook], []⟩

/-- The edit payload used by the C4 witness. -/
def someFields : BookFields :=
  { status := "draft", title := "New", author := "Au2", price := 8, description := "e" }

/-- Witness for C4: editing a foreign book as the librarian is a no-op
returning false. -/
theorem updateOwned_spec_witness :
    updateOwned "lib@x.com" "bF" someFields foreignBookStore
      = (.ok false, foreignBookStore) :=
  (updateOwned_spec "lib@x.com" "bF" someFields foreignBookStore (by decide)).1
    (by decide)

/-- C10: `pay` and `cancel` answer Forbidden — never NotFound — both when
the order id does not exist and when the order belongs to a different
email, and in both cases the store is unchanged, so the two cases are
indistinguishable at the interface. -/
theorem pay_cancel_not_owned_forbidden (e oid : String) (s : Store)
    (h : ∀ o, findOrder s oid = some o → o.email ≠ e) :
    cancel e oid s = (.forbidden, s) ∧ pay e oid s = (.forbidden, s) := by
  cases hf : findOrder s oid with
  | none => simp [cancel, pay, setOrderField, hf]
  | some o =>
    have hne : o.email ≠ e := h o hf
    simp [cancel, pay, setOrderField, hf, hne]

/-- An order owned by a third party, for the C10 witness. -/
def foreignOrder : Order :=
  { id := "oF", bookId := "b1", bookTitle := "", price := 3
    email := "owner@x.com", status := "pending", paymentStatus := "unpaid", createdAt := 2 }

/-- A store containing only `foreignOrder`. -/
def foreignOrderStore : Store :=
  ⟨[], [], [foreignOrder]⟩

/-- Witness for C10: acting on someone else's order (and, via the same
theorem shape, on a missing one) yields Forbidden with no state change. -/
theorem pay_cancel_not_owned_forbidden_witness :
    cancel "other@x.com" "oF" foreignOrderStore = (.forbidden, foreignOrderStore)
      ∧ pay "other@x.com" "oF" foreignOrderStore = (.forbidden, foreignOrderStore) :=
  pay_cancel_not_owned_forbidden "other@x.com" "oF" foreignOrderStore
    (fun o ho => by
      have hoF : o = foreignOrder := by
        have : some foreignOrder = some o := by
          rw [← ho]
          decide
        simpa using this.symm
      rw [hoF]
      decide)

/-- Shared idempotence argument for the two user order mutations: when
the first matching order is owned by the acting email, the call succeeds,
a second identical call succeeds and leaves the state it received, and
the order afterwards is the `$set`-rewrite of the original. -/
theorem setOrderField_ok (g : Order → Order)
    (hid : ∀ x, (g x).id = x.id) (hem : ∀ x, (g x).email = x.email)
    (hgg : ∀ x, g (g x) = g x)
    (e oid : String) (s : Store) (o : Order)
    (hfind : findOrder s oid = some o) (hown : o.email = e) :
    ∃ b1 s1, setOrderField g e oid s = (.ok b1, s1)
      ∧ (∃ b2, setOrderField g e oid s1 = (.ok b2, s1))
      ∧ findOrder s1 oid = some (g o) := by
  have hfind2 : s.orders.find? (fun x => x.id == oid) = some o := hfind
  have hpo := List.find?_some hfind2
  have hpf : ((g o).id == oid) = true := by
    rw [hid]
    simpa using hpo
  have hfo2 : findOrder
      ({ s with orders := (updateFirst (fun x => x.id == oid) g s.orders).2 }) oid
      = some (g o) := by
    show ((updateFirst (fun x => x.id == oid) g s.orders).2).find?
        (fun x => x.id == oid) = some (g o)
    exact find?_updateFirst hfind hpf
  refine ⟨(updateFirst (fun x => x.id == oid) g s.orders).1,
    { s with orders := (updateFirst (fun x => x.id == oid) g s.orders).2 },
    ?_, ?_, hfo2⟩
  · simp [setOrderField, hfind, hown]
  · have hstable := updateFirst_stable (p := fun x : Order => x.id == oid) g
      (fun a ha => by simp only [hid]; exact ha) hgg s.orders
    have h2 : setOrderField g e oid
        ({ s with orders := (updateFirst (fun x => x.id == oid) g s.orders).2 })
        = (.ok (updateFirst (fun x => x.id == oid) g
              ((updateFirst (fun x => x.id == oid) g s.orders).2)).1,
           { s with orders := (updateFirst (fun x => x.id == oid) g
              ((updateFirst (fun x => x.id == oid) g s.orders).2)).2 }) := by
      simp only [setOrderField, hfo2]
      rw [if_neg (by rw [hem]; simp [hown])]
    rw [hstable] at h2
    exact ⟨_, h2⟩

/-- C6: For an order owned by the acting user, `pay` and `cancel` are
idempotent on the store: a second invocation succeeds and returns the
state of the first unchanged; and `cancel` sets status `cancelled` (and
`pay` sets paymentStatus `paid`) from any current status. -/
theorem pay_cancel_idempotent (e oid : String) (s : Store) (o : Order)
    (hfind : findOrder s oid = some o) (hown : o.email = e) :
    (∃ b1 s1, cancel e oid s = (.ok b1, s1)
        ∧ (∃ b2, cancel e oid s1 = (.ok b2, s1))
        ∧ (∃ o1, findOrder s1 oid = some o1 ∧ o1.status = "cancelled"))
      ∧ (∃ b1 s1, pay e oid s = (.ok b1, s1)
        ∧ (∃ b2, pay e oid s1 = (.ok b2, s1))
        ∧ (∃ o1, findOrder s1 oid = some o1 ∧ o1.paymentStatus = "paid")) := by
  constructor
  · obtain ⟨b1, s1, h1, h2, h3⟩ :=
      setOrderField_ok (fun x => { x with status := "cancelled" })
        (fun _ => rfl) (fun _ => rfl) (fun _ => rfl) e oid s o hfind hown
    exact ⟨b1, s1, h1, h2, ⟨_, h3, rfl⟩⟩
  · obtain ⟨b1, s1, h1, h2, h3⟩ :=
      setOrderField_ok (fun x => { x with paymentStatus := "paid" })
        (fun _ => rfl) (fun _ => rfl) (fun _ => rfl) e oid s o hfind hown
    exact ⟨b1, s1, h1, h2, ⟨_, h3, rfl⟩⟩

/-- An order already delivered, to exercise cancel-from-any-status. -/
def deliveredOrder : Order :=
  { id := "o6", bookId := "b6", bookTitle := "", price := 7
    email := "me@x.com", status := "delivered", paymentStatus := "unpaid", createdAt := 3 }

/-- A store containing only `deliveredOrder`. -/
def deliveredStore : Store :=
  ⟨[], [], [deliveredOrder]⟩

/-- Witness for C6: paying and cancelling a concrete delivered order
owned by the caller, twice. -/
theorem pay_cancel_idempotent_witness :
    (∃ b1 s1, cancel "me@x.com" "o6" deliveredStore = (.ok b1, s1)
        ∧ (∃ b2, cancel "me@x.com" "o6" s1 = (.ok b2, s1))
        ∧ (∃ o1, findOrder s1 "o6" = some o1 ∧ o1.status = "cancelled"))
      ∧ (∃ b1 s1, pay "me@x.com" "o6" deliveredStore = (.ok b1, s1)
        ∧ (∃ b2, pay "me@x.com" "o6" s1 = (.ok b2, s1))
        ∧ (∃ o1, findOrder s1 "o6" = some o1 ∧ o1.paymentStatus = "paid")) :=
  pay_cancel_idempotent "me@x.com" "o6" deliveredStore deliveredOrder (by decide) rfl

/-- C3 (amended): with a librarian principal, `updateStatus` rejects any
status outside {pending, shipped, delivered} (so `cancelled` is excluded
from this path), answers NotFound for a missing order, Forbidden for an
order whose book belongs to another librarian even when the status value
is valid — all leaving the store unchanged; but when the order exists and
its referenced book is absent, the handler dereferences a null book
(uncaught TypeError) instead of returning NotFound. -/
theorem updateStatus_spec (le oid st : String) (s : Store)
    (hrole : requireRole s le "librarian" = true) :
    (validStatuses.contains st = false → updateStatus le oid st s = (.badRequest, s))
      ∧ (findOrder s oid = none → validStatuses.contains st = true →
          updateStatus le oid st s = (.notFound, s))
      ∧ (∀ o, findOrder s oid = some o → validStatuses.contains st = true →
          findBook s o.bookId = none →
          updateStatus le oid st s = (.nullDeref, s))
      ∧ (∀ o bk, findOrder s oid = some o → validStatuses.contains st = true →
          findBook s o.bookId = some bk → bk.librarianEmail ≠ le →
          updateStatus le oid st s = (.forbidden, s)) := by
  refine ⟨?_, ?_, ?_, ?_⟩
  · intro hst
    have hst2 : st ∉ validStatuses := by simpa using hst
    simp [updateStatus, hrole, hst2]
  · intro hord hst
    have hst2 : st ∈ validStatuses := by simpa using hst
    simp [updateStatus, hrole, hst2, hord]
  · intro o hord hst hbk
    have hst2 : st ∈ validStatuses := by simpa using hst
    simp [updateStatus, hrole, hst2, hord, hbk]
  · intro o bk hord hst hbk hne
    have hst2 : st ∈ validStatuses := by simpa using hst
    simp [updateStatus, hrole, hst2, hord, hbk, hne]

/-- An order whose `bookId` points at no existing book. -/
def danglingOrder : Order :=
  { id := "oD", bookId := "missing", bookTitle := "", price := 5
    email := "c@x.com", status := "pending", paymentStatus := "unpaid", createdAt := 1 }

/-- A store with a librarian, no books, and one dangling order. -/
def danglingStore : Store :=
  ⟨[libUser], [], [danglingOrder]⟩

/-- Counterexample for C3 as stated: with a valid status and an existing
order whose referenced book is absent, the handler does not answer
NotFound — it crashes reading `book.librarianEmail` on a null book. -/
theorem updateStatus_dangling_not_notFound :
    updateStatus "lib@x.com" "oD" "shipped" danglingStore
        = (.nullDeref, danglingStore)
      ∧ updateStatus "lib@x.com" "oD" "shipped" danglingStore
        ≠ (.notFound, danglingStore) := by
  decide

/-- An order referencing `foreignBook`, owned by a third-party customer. -/
def orderOnForeign : Order :=
  { id := "oG", bookId := "bF", bookTitle := "F", price := 5
    email := "c@x.com", status := "pending", paymentStatus := "unpaid", createdAt := 2 }

/-- A store where the acting librarian owns no books but an order exists
on another librarian's book. -/
def foreignOrderBookStore : Store :=
  ⟨[libUser], [foreignBook], [orderOnForeign]⟩

/-- Witness for C3 (amended): the cancelled value is rejected, a valid
status on a foreign book answers Forbidden, and a missing order answers
NotFound, all on concrete stores. -/
theorem updateStatus_spec_witness :
    updateStatus "lib@x.com" "oG" "cancelled" foreignOrderBookStore
        = (.badRequest, foreignOrderBookStore)
      ∧ updateStatus "lib@x.com" "oG" "shipped" foreignOrderBookStore
        = (.forbidden, foreignOrderBookStore)
      ∧ updateStatus "lib@x.com" "nobody" "shipped" foreignOrderBookStore
        = (.notFound, foreignOrderBookStore) :=
  ⟨(updateStatus_spec "lib@x.com" "oG" "cancelled" foreignOrderBookStore (by decide)).1
      (by decide),
   (updateStatus_spec "lib@x.com" "oG" "shipped" foreignOrderBookStore (by decide)).2.2.2
      orderOnForeign foreignBook (by decide) (by decide) (by decide) (by decide),
   (updateStatus_spec "lib@x.com" "nobody" "shipped" foreignOrderBookStore (by decide)).2.1
      (by decide) (by decide)⟩

/-- C7: every book `GET /books` returns is published, and
`GET /books/latest` returns at most six books, all published, in
non-increasing `createdAt` order. -/
theorem list_published_spec (s : Store) :
    (∀ b ∈ listPublished s, b.status = "published")
      ∧ (listLatestPublished 6 s).length ≤ 6
      ∧ (∀ b ∈ listLatestPublished 6 s, b.status = "published")
      ∧ (listLatestPublished 6 s).Pairwise (fun a b => b.createdAt ≤ a.createdAt) := by
  refine ⟨?_, ?_, ?_, ?_⟩
  · intro b hb
    have := (List.mem_filter.mp hb).2
    simpa using this
  · rw [listLatestPublished, List.length_take]
    exact min_le_left _ _
  · intro b hb
    have hb2 : b ∈ (s.books.filter (fun x => x.status == "published")).mergeSort byNewest :=
      List.take_subset _ _ hb
    have hb3 : b ∈ s.books.filter (fun x => x.status == "published") :=
      (List.mergeSort_perm _ _).mem_iff.mp hb2
    simpa using (List.mem_filter.mp hb3).2
  · have hs : List.Pairwise (fun a b => byNewest a b = true)
        ((s.books.filter (fun x => x.status == "published")).mergeSort byNewest) :=
      List.sorted_mergeSort
        (fun a b c hab hbc => by
          simp only [byNewest, decide_eq_true_eq] at hab hbc ⊢
          omega)
        (fun a b => by
          simp only [byNewest, Bool.or_eq_true, decide_eq_true_eq]
          omega)
        (s.books.filter (fun x => x.status == "published"))
    exact (List.Pairwise.sublist (List.take_sublist _ _) hs).imp
      (fun h => by simpa [byNewest] using h)

/-- Witness for C7: the store with one published and one draft book. -/
theorem list_published_spec_witness :
    bookB.status = "published" ∧ (listLatestPublished 6 cascadeStore).length ≤ 6 :=
  ⟨(list_published_spec cascadeStore).1 bookB (by decide),
   (list_published_spec cascadeStore).2.1⟩

/-- The catalog book of the C8 scenario, price 20. -/
def book8 : Book :=
  { id := "b8", title := "T8", author := "A", price := 20, description := ""
    image := "", status := "published", librarianEmail := "lib@x.com", createdAt := 1 }

/-- The C8 scenario store before ordering. -/
def book8Store : Store :=
  ⟨[], [book8], []⟩

/-- The C8 order body; the client-supplied status, paymentStatus and
email are overridden by `place`. -/
def body8 : OrderBody :=
  { bookId := "b8", bookTitle := "T8", price := 20
    status := some "delivered", paymentStatus := some "paid", email := some "evil@x.com" }

/-- The store after the buyer places the order. -/
def placedStore : Store :=
  (place "buyer@x.com" body8 "order12x" 10 book8Store).2

/-- The store after the buyer pays the order. -/
def paidStore : Store :=
  (pay "buyer@x.com" "order12x" placedStore).2

/-- C8: the invoice view has exactly one invoice per paid order of the
email and none for unpaid orders; each invoice's paymentId is the
trailing 8 characters of the order id uppercased and its amount is the
order's recorded price; and in the concrete place-then-pay scenario with
price 20 the view is exactly one invoice with amount 20 and an
8-character uppercase paymentId. -/
theorem invoicesFor_spec (e : String) (s : Store) :
    (invoicesFor e s).length
        = (s.orders.filter (fun o => o.email == e && o.paymentStatus == "paid")).length
      ∧ (∀ inv ∈ invoicesFor e s, ∃ o ∈ s.orders,
          o.email = e ∧ o.paymentStatus = "paid"
            ∧ inv.paymentId = sliceLast8Upper o.id
            ∧ inv.amount = o.price ∧ inv.id = o.id)
      ∧ (invoicesFor "buyer@x.com" paidStore
            = [{ id := "order12x", paymentId := "ORDER12X", bookTitle := "T8"
                 amount := 20, date := 10 }]
          ∧ "ORDER12X".length = 8) := by
  refine ⟨?_, ?_, by decide⟩
  · simp [invoicesFor]
  · intro inv hinv
    rw [invoicesFor, List.mem_map] at hinv
    obtain ⟨o, ho, rfl⟩ := hinv
    rw [List.mem_filter] at ho
    have h2 := ho.2
    simp only [Bool.and_eq_true, beq_iff_eq] at h2
    exact ⟨o, ho.1, h2.1, h2.2, rfl, rfl, rfl⟩

/-- The single invoice of the C8 scenario. -/
def invoice8 : Invoice :=
  { id := "order12x", paymentId := "ORDER12X", bookTitle := "T8", amount := 20, date := 10 }

/-- Witness for C8: the scenario invoice is traced back to a concrete
paid order of the buyer with the derived paymentId and amount. -/
theorem invoicesFor_spec_witness :
    ∃ o ∈ paidStore.orders,
      o.email = "buyer@x.com" ∧ o.paymentStatus = "paid"
        ∧ invoice8.paymentId = sliceLast8Upper o.id
        ∧ invoice8.amount = o.price ∧ invoice8.id = o.id :=
  (invoicesFor_spec "buyer@x.com" paidStore).2.1 invoice8 (by decide)

/-- An ordinary user account targeted by the role update. -/
def plainUser : User :=
  { id := "idU", uid := "fbU", email := "u@x.com", name := "U"
    profileImage := "", role := "user", createdAt := 0 }

/-- A store with an admin and an ordinary user. -/
def roleStore : Store :=
  ⟨[adminUser, plainUser], [], []⟩

/-- Counterexample for C9 as stated: the role-update handler stores the
raw request value, so an admin can put a role outside
{user, librarian, admin} on a user. -/
theorem updateRole_unvalidated :
    (updateRole "admin@x.com" "idU" "superadmin" roleStore).2.users
        = [adminUser, { plainUser with role := "superadmin" }]
      ∧ "superadmin" ∉ roleSet
      ∧ (updateRole "admin@x.com" "idU" "superadmin" roleStore).1 = .ok true := by
  decide

/-- C9 (amended): starting from a store whose users all have roles in
{user, librarian, admin}, provisioning on login only ever assigns one of
the three, and the admin role-update preserves the invariant whenever
the supplied value is itself in the set — the handler stores the request
value unvalidated, so the restriction on the supplied value is needed. -/
theorem roles_closed (adm lib : List String) (s : Store)
    (hs : ∀ u ∈ s.users, u.role ∈ roleSet) :
    (∀ e uid nm pic nid now,
        ∀ u ∈ (loginOrCreate adm lib e uid nm pic nid now s).2.users, u.role ∈ roleSet)
      ∧ (∀ re tid r, r ∈ roleSet →
          ∀ u ∈ (updateRole re tid r s).2.users, u.role ∈ roleSet) := by
  constructor
  · intro e uid nm pic nid now u hu
    cases hfu : findUser s e with
    | some v =>
      simp only [loginOrCreate, hfu] at hu
      exact hs u hu
    | none =>
      simp only [loginOrCreate, hfu, List.mem_append, List.mem_singleton] at hu
      rcases hu with hu | hu
      · exact hs u hu
      · subst hu
        simp only [assignRole, roleSet]
        split
        · simp
        · split <;> simp
  · intro re tid r hr u hu
    cases hadm : requireRole s re "admin" with
    | false =>
      simp only [updateRole, hadm] at hu
      exact hs u hu
    | true =>
      simp only [updateRole, hadm, Bool.true_eq_false, if_false] at hu
      rcases mem_updateFirst hu with h | ⟨v, hv, huv⟩
      · exact hs u h
      · subst huv
        simpa using hr

/-- Witness for C9 (amended): a concrete in-set role update on
`roleStore` leaves the rewritten user's role inside the set. -/
theorem roles_closed_witness :
    ({ plainUser with role := "librarian" } : User).role ∈ roleSet :=
  (roles_closed ["a@g.com"] ["l@g.com"] roleStore (by decide)).2
    "admin@x.com" "idU" "librarian" (by decide)
    { plainUser with role := "librarian" } (by decide)

end BookCourier
